import Mathlib

/-!
Verification of the workflow graph composer and configuration-binding engine
of the hcpre repository (src/hcp_prep/pipe.py, class HCPrepWorkflow).

The embedding models the composer as a pure state-passing translation of the
Python class: the lazily memoized node properties become an explicit map from
stage identity to an optional node, in-place mutation of node inputs becomes
functional record update, and the nipype workflow graph becomes an explicit
list of graph nodes and typed edges.  Each definition carries a reference to
the source lines it embeds.  Functions of this repository that live in the
config, util and interfaces modules (which are not among the provided
sources) are modelled from the spec and are marked as such in their doc
comments.
-/

/-- A primitive configuration or parameter value: the value shapes that
pipe.py actually stores (strings, booleans, small integers, lists of strings
such as the subject list, and the nested list shape used by the DataGrabber
template_args default). -/
inductive Prim where
  | str : String → Prim
  | bool : Bool → Prim
  | nat : Nat → Prim
  | strList : List String → Prim
  | nestedList : List (List String) → Prim
deriving DecidableEq, Repr

/-- One configuration section: an ordered mapping from option name to value
(Python dict preserves insertion order). -/
abbrev ConfSection := List (String × Prim)

/-- A ConfigDocument: ordered mapping of section name to section
(spec section 3). -/
abbrev Config := List (String × ConfSection)

/-- A value stored in a node input slot: either a primitive or a mapping from
name to primitive (used for field_template, series_map, environ and
template_args assignments in pipe.py). -/
inductive Value where
  | prim : Prim → Value
  | map : List (String × Prim) → Value
deriving DecidableEq, Repr

/-- First-match lookup in an ordered association list, mirroring a Python
dict read. -/
def lookupKey {α : Type} : List (String × α) → String → Option α
  | [], _ => none
  | p :: rest, k => if p.1 = k then some p.2 else lookupKey rest k

/-- Overwrite-or-append update of an ordered association list, mirroring a
Python dict or trait attribute assignment. -/
def setAssoc (m : List (String × Value)) (k : String) (v : Value) :
    List (String × Value) :=
  match m with
  | [] => [(k, v)]
  | p :: rest => if p.1 = k then (k, v) :: rest else p :: setAssoc rest k v

/-- Python truthiness of a primitive value, used by the guards in
update_nodes_from_config (pipe.py lines 98, 103, 105). -/
def Prim.truthy : Prim → Bool
  | .str s => !s.isEmpty
  | .bool b => b
  | .nat n => n != 0
  | .strList l => !l.isEmpty
  | .nestedList l => !l.isEmpty

/-- The thirteen stage identities of the composer, one per self-inflating
node property of HCPrepWorkflow (pipe.py lines 205-348). -/
inductive StageId where
  | subjectsNode | dicomGrabber | dicomGather | dicomSelect | dicomConvert
  | dicomInfo | niiWrangler | hcPreFS | hcFS | hcPostFS | hcVolume
  | hcSurface | dataSink
deriving DecidableEq, Repr

/-- A processing stage (a nipype Node or MapNode): its graph name, the name
of the wrapped interface, the fan-out slot declaration (the iterfield of a
MapNode, empty for a plain Node), the explicitly assigned input parameters,
and the batch-iteration declaration (iterables). -/
structure Node where
  name : String
  iface : String
  iterfield : List String
  inputs : List (String × Value)
  iterables : Option (String × Prim)
deriving DecidableEq, Repr

/-- A directed data edge of the workflow graph: source stage and output slot,
destination stage and input slot.  Stages are referenced by identity, as
nipype connect receives the node objects themselves. -/
structure Edge where
  src : StageId
  srcSlot : String
  dst : StageId
  dstSlot : String
deriving DecidableEq, Repr

/-- The composer state: the assigned configuration, the memoized node cache
backing the thirteen lazy properties, and the current graph content (node
set and edge set). -/
structure WState where
  hcConfig : Option Config
  nodes : StageId → Option Node
  graphNodes : List StageId
  edges : List Edge

/-- The declared defaults each stage is constructed with on first access
(pipe.py lines 205-348: interface choice plus the input presets of
dicom_grabber, dicom_select, dicom_convert, and the MapNode iterfields of
hc_volume and hc_surface). -/
def defaultNode : StageId → Node
  | .subjectsNode => ⟨"subs_node", "util.IdentityInterface", [], [], none⟩
  | .dicomGrabber =>
      ⟨"dicom_source_1", "nio.DataGrabber", [],
        [("template", .prim (.str "*")),
         ("template_args", .map [("dicom", .nestedList [["subject"]])]),
         ("sort_filelist", .prim (.bool true))], none⟩
  | .dicomGather => ⟨"dicom_gather", "GatherFiles", [], [], none⟩
  | .dicomSelect =>
      ⟨"select_dicom", "util.Select", [], [("index", .prim (.nat 0))], none⟩
  | .dicomConvert =>
      ⟨"dicom_convert", "HCDcm2nii", [],
        [("convert_all_pars", .prim (.bool true)),
         ("gzip_output", .prim (.bool false)),
         ("reorient", .prim (.bool false)),
         ("reorient_and_crop", .prim (.bool false)),
         ("args", .prim (.str "-d n -p n"))], none⟩
  | .dicomInfo => ⟨"dicom_info", "DicomInfo", [], [], none⟩
  | .niiWrangler => ⟨"nii_wrangler", "NiiWrangler", [], [], none⟩
  | .hcPreFS => ⟨"pre_freesurfer", "PreFS", [], [], none⟩
  | .hcFS => ⟨"freesurfer", "FS", [], [], none⟩
  | .hcPostFS => ⟨"post_freesurfer", "PostFS", [], [], none⟩
  | .hcVolume =>
      ⟨"volume", "VolumeProcessing",
        ["bold_name", "bold_img", "bold_scout", "se_fieldmap_pos",
         "se_fieldmap_neg", "unwarp_dir", "fieldmap_echo_spacing"], [], none⟩
  | .hcSurface =>
      ⟨"surface", "SurfaceProcessing", ["bold_name", "subject"], [], none⟩
  | .dataSink => ⟨"data_sink", "nio.DataSink", [], [], none⟩

/-- The lazy memoized stage accessor shared by all thirteen self-inflating
node properties (pipe.py lines 205-348): if the cache slot is empty the
stage is constructed with its declared defaults and cached; otherwise the
cached instance is returned unchanged. -/
def stage (i : StageId) (s : WState) : Node × WState :=
  match s.nodes i with
  | some n => (n, s)
  | none =>
      (defaultNode i,
       { s with nodes := Function.update s.nodes i (some (defaultNode i)) })

/-- Access a stage for its side effect only (creation on first access). -/
def ensureStage (i : StageId) (s : WState) : WState := (stage i s).2

/-- Mutate a stage through its accessor: get-or-create the node, apply the
in-place mutation, store the result back in the same cache slot.  This is
the shape of every statement of the form self.some_node.inputs.x = v in
update_nodes_from_config. -/
def modStage (i : StageId) (f : Node → Node) (s : WState) : WState :=
  let p := stage i s
  { p.2 with nodes := Function.update p.2.nodes i (some (f p.1)) }

/-- Assign one input parameter of a node (a nipype trait assignment). -/
def setInput (k : String) (v : Value) (n : Node) : Node :=
  { n with inputs := setAssoc n.inputs k v }

/-- Install a batch-iteration declaration on a node
(pipe.py line 99: subjects_node.iterables assignment). -/
def setIterables (k : String) (v : Prim) (n : Node) : Node :=
  { n with iterables := some (k, v) }

/-- Modelled from the spec: apply_dict_to_obj is defined in the repository
util module, which is not among the provided sources.  Following spec
section 4.5 step 4 and the design notes, it applies each key-value pair of
the mapping, in mapping order, as a parameter override on the target
object, skipping any name listed in skip_names. -/
def apply_dict_to_obj (d : ConfSection) (n : Node) (skip_names : List String) :
    Node :=
  d.foldl (fun m kv =>
    if kv.1 ∈ skip_names then m else setInput kv.1 (.prim kv.2) m) n

/-- Modelled from the spec: get_hcp_commands_for_config is defined in the
repository config module, which is not among the provided sources.  Spec
section 4.3 fixes only its interface: a pure, total function of the
configuration returning one shell-command template per external-tool stage,
in stage-pipeline order, tolerating absent options by falling back to
defaults.  No claim depends on the template text, so the five templates are
modelled as fixed placeholder strings. -/
def get_hcp_commands_for_config (_c : Config) :
    Prim × Prim × Prim × Prim × Prim :=
  (.str "PreFreeSurferPipeline.sh", .str "FreeSurferPipeline.sh",
   .str "PostFreeSurferPipeline.sh", .str "GenericfMRIVolumeProcessingPipeline.sh",
   .str "GenericfMRISurfaceProcessingPipeline.sh")

/-- Modelled from the spec: get_hcp_env_for_config is defined in the
repository config module, which is not among the provided sources.  Spec
section 4.3 fixes only its interface: a pure, total function of the
configuration returning one environment mapping shared by all external-tool
stages.  No claim depends on the mapping content, so it is modelled as a
fixed placeholder mapping. -/
def get_hcp_env_for_config (_c : Config) : ConfSection :=
  [("HCPPIPEDIR", .str "/opt/hcp/pipelines")]

/-- Read one option of a ConfigDocument: dict get with empty-dict default
on the section, then get with None default on the option. -/
def conf_get (c : Config) (sec opt : String) : Option Prim :=
  match lookupKey c sec with
  | some so => lookupKey so opt
  | none => none

/-- HCPrepWorkflow.get_conf (pipe.py lines 90-93): None when no truthy
configuration is assigned, otherwise a two-level dict read. -/
def get_conf (s : WState) (sec opt : String) : Option Prim :=
  match s.hcConfig with
  | none => none
  | some c => if c.isEmpty then none else conf_get c sec opt

/-- The shape shared by the guarded overrides of update_nodes_from_config
(pipe.py lines 98-99, 103-104, 105-106): a configuration value is applied to
a stage only when it was found and is truthy; otherwise the state is left
alone. -/
def applyIfTruthy (ov : Option Prim) (i : StageId) (f : Prim → Node → Node)
    (s : WState) : WState :=
  match ov with
  | some v => if v.truthy then modStage i (f v) s else s
  | none => s

/-- update_nodes_from_config, subjects stanza (pipe.py lines 96-99): when
general.subjects is present and truthy, install it as the iterables of the
subjects node; otherwise leave the subjects node alone. -/
def applySubjectsOverride (s : WState) : WState :=
  applyIfTruthy (get_conf s "general" "subjects") .subjectsNode
    (fun v => setIterables "subject" v) s

/-- update_nodes_from_config, dicom grabber stanza (pipe.py lines 100-106):
guarded overrides of base_directory and field_template on the grabber, the
latter wrapped as the singleton mapping from the key dicom to the
template.  Both option reads happen before either override is applied, as
in the source. -/
def applyGrabberOverrides (s : WState) : WState :=
  let sub_dir := get_conf s "general" "subject_dir"
  let dcm_temp := get_conf s "general" "dicom_template"
  let s1 := applyIfTruthy sub_dir .dicomGrabber
    (fun v => setInput "base_directory" (.prim v)) s
  applyIfTruthy dcm_temp .dicomGrabber
    (fun v => setInput "field_template" (.map [("dicom", v)])) s1

/-- update_nodes_from_config, series stanza (pipe.py lines 107-110): the
series section is installed as the series_map of the nii wrangler only when
it is non-empty; an absent or empty section leaves the wrangler at its
built-in default rules. -/
def applySeriesOverride (s : WState) : WState :=
  let series_map := (lookupKey (s.hcConfig.getD []) "series").getD []
  if series_map.isEmpty then s
  else modStage .niiWrangler (setInput "series_map" (.map series_map)) s

/-- The five external-tool stages, in the order of the loop at
pipe.py line 114. -/
def toolStages : List StageId :=
  [.hcPreFS, .hcFS, .hcPostFS, .hcVolume, .hcSurface]

/-- The per-stage body of the loop at pipe.py lines 114-116: apply the
templates section skipping the name templates_dir, then apply the
config_files section with no skip list. -/
def applyTempsAndFiles (temps c_files : ConfSection) (n : Node) : Node :=
  apply_dict_to_obj c_files (apply_dict_to_obj temps n ["templates_dir"]) []

/-- update_nodes_from_config, templates and config_files stanza
(pipe.py lines 111-116): both sections are read once, then applied to each
of the five external-tool stages in turn. -/
def applyTemplatesAndConfigFiles (s : WState) : WState :=
  let temps := (lookupKey (s.hcConfig.getD []) "templates").getD []
  let c_files := (lookupKey (s.hcConfig.getD []) "config_files").getD []
  toolStages.foldl (fun t i => modStage i (applyTempsAndFiles temps c_files) t) s

/-- update_nodes_from_config, command stanza (pipe.py lines 117-122): the
five derived command templates are computed once and installed as the
full_command input of the five external-tool stages, in pipeline order. -/
def applyCommands (s : WState) : WState :=
  let cmds := get_hcp_commands_for_config (s.hcConfig.getD [])
  let s1 := modStage .hcPreFS (setInput "full_command" (.prim cmds.1)) s
  let s2 := modStage .hcFS (setInput "full_command" (.prim cmds.2.1)) s1
  let s3 := modStage .hcPostFS (setInput "full_command" (.prim cmds.2.2.1)) s2
  let s4 := modStage .hcVolume (setInput "full_command" (.prim cmds.2.2.2.1)) s3
  modStage .hcSurface (setInput "full_command" (.prim cmds.2.2.2.2)) s4

/-- update_nodes_from_config, environment stanza (pipe.py lines 123-129):
the derived environment mapping is computed once and installed as the
environ input of each of the five external-tool stages. -/
def applyEnvirons (s : WState) : WState :=
  let envs := get_hcp_env_for_config (s.hcConfig.getD [])
  let s1 := modStage .hcPreFS (setInput "environ" (.map envs)) s
  let s2 := modStage .hcFS (setInput "environ" (.map envs)) s1
  let s3 := modStage .hcPostFS (setInput "environ" (.map envs)) s2
  let s4 := modStage .hcVolume (setInput "environ" (.map envs)) s3
  modStage .hcSurface (setInput "environ" (.map envs)) s4

/-- update_nodes_from_config, per-stage override stanza (pipe.py lines
130-136): the six per-stage configuration sections are applied
unconditionally (an absent section is the empty mapping) to their stages,
with no skip list. -/
def applyStageSections (s : WState) : WState :=
  let c := s.hcConfig.getD []
  let s1 := modStage .niiWrangler
    (fun n => apply_dict_to_obj ((lookupKey c "nifti_wrangler").getD []) n []) s
  let s2 := modStage .hcPreFS
    (fun n => apply_dict_to_obj ((lookupKey c "pre_freesurfer").getD []) n []) s1
  let s3 := modStage .hcFS
    (fun n => apply_dict_to_obj ((lookupKey c "freesurfer").getD []) n []) s2
  let s4 := modStage .hcPostFS
    (fun n => apply_dict_to_obj ((lookupKey c "post_freesurfer").getD []) n []) s3
  let s5 := modStage .hcVolume
    (fun n => apply_dict_to_obj ((lookupKey c "volume_processing").getD []) n []) s4
  modStage .hcSurface
    (fun n => apply_dict_to_obj ((lookupKey c "surface_processing").getD []) n []) s5

/-- HCPrepWorkflow.update_nodes_from_config (pipe.py lines 95-136): the full
rebind sequence, one stanza after the other, in source order. -/
def update_nodes_from_config (s : WState) : WState :=
  applyStageSections (applyEnvirons (applyCommands
    (applyTemplatesAndConfigFiles (applySeriesOverride
      (applyGrabberOverrides (applySubjectsOverride s))))))

/-- The hc_config setter (pipe.py lines 84-88): store the value, and run the
rebind sequence only when the stored value is truthy (a non-empty
document). -/
def set_hc_config (s : WState) (value : Option Config) : WState :=
  let s1 : WState := { s with hcConfig := value }
  match value with
  | some c => if c.isEmpty then s1 else update_nodes_from_config s1
  | none => s1

/-- A freshly constructed composer before any configuration is assigned: no
configuration, no memoized stages, an empty graph. -/
def initState : WState :=
  { hcConfig := none, nodes := fun _ => none, graphNodes := [], edges := [] }

/-- HCPrepWorkflow construction (pipe.py lines 77-79): the constructor
assigns the passed configuration through the hc_config setter. -/
def mkWorkflow (config : Option Config) : WState :=
  set_hc_config initState config

/-- HCPrepWorkflow.clear_nodes (pipe.py lines 146-149): remove every node
currently in the graph; removing a node also removes its edges, so the
graph is left empty. -/
def clear_nodes (s : WState) : WState :=
  { s with graphNodes := [], edges := [] }

/-- All thirteen stages, in the order their accessors are first touched by
connect_nodes. -/
def allStages : List StageId :=
  [.subjectsNode, .dicomGrabber, .dicomGather, .dicomSelect, .dicomConvert,
   .dicomInfo, .niiWrangler, .hcPreFS, .hcFS, .hcPostFS, .hcVolume,
   .hcSurface, .dataSink]

/-- The fixed edge list declared by connect_nodes (pipe.py lines 154-201),
in source order: acquisition, pre freesurfer, freesurfer, post freesurfer,
volume, surface, datasink. -/
def fixedEdges : List Edge :=
  [⟨.subjectsNode, "subject", .dicomGrabber, "subject"⟩,
   ⟨.dicomGrabber, "dicom", .dicomGather, "files"⟩,
   ⟨.dicomGather, "links", .dicomSelect, "inlist"⟩,
   ⟨.dicomSelect, "out", .dicomConvert, "source_names"⟩,
   ⟨.dicomGather, "links", .dicomInfo, "files"⟩,
   ⟨.dicomConvert, "converted_files", .niiWrangler, "nii_files"⟩,
   ⟨.dicomInfo, "info", .niiWrangler, "dicom_info"⟩,
   ⟨.subjectsNode, "subject", .hcPreFS, "subject"⟩,
   ⟨.niiWrangler, "t1_structs", .hcPreFS, "t1_files"⟩,
   ⟨.niiWrangler, "t2_structs", .hcPreFS, "t2_files"⟩,
   ⟨.niiWrangler, "mag_fieldmap", .hcPreFS, "fieldmap_magnitude"⟩,
   ⟨.niiWrangler, "phase_fieldmap", .hcPreFS, "fieldmap_phase"⟩,
   ⟨.niiWrangler, "fieldmap_te", .hcPreFS, "fieldmap_te"⟩,
   ⟨.niiWrangler, "t1_sample_spacing", .hcPreFS, "t1_sample_spacing"⟩,
   ⟨.niiWrangler, "t2_sample_spacing", .hcPreFS, "t2_sample_spacing"⟩,
   ⟨.hcPreFS, "subject", .hcFS, "subject"⟩,
   ⟨.hcPreFS, "subject_t1_dir", .hcFS, "subject_t1_dir"⟩,
   ⟨.hcPreFS, "t1_acpc_dc_restore", .hcFS, "t1_acpc_dc_restore"⟩,
   ⟨.hcPreFS, "t1_acpc_dc_restore_brain", .hcFS, "t1_acpc_dc_restore_brain"⟩,
   ⟨.hcPreFS, "t2_acpc_dc_restore", .hcFS, "t2_acpc_dc_restore"⟩,
   ⟨.hcFS, "subject", .hcPostFS, "subject"⟩,
   ⟨.hcPreFS, "study_dir", .hcPostFS, "study_dir"⟩,
   ⟨.hcPostFS, "subject", .hcVolume, "subject"⟩,
   ⟨.hcPreFS, "study_dir", .hcVolume, "study_dir"⟩,
   ⟨.niiWrangler, "bold_names", .hcVolume, "bold_name"⟩,
   ⟨.niiWrangler, "bolds", .hcVolume, "bold_img"⟩,
   ⟨.niiWrangler, "sb_refs", .hcVolume, "bold_scout"⟩,
   ⟨.niiWrangler, "neg_fieldmaps", .hcVolume, "se_fieldmap_neg"⟩,
   ⟨.niiWrangler, "pos_fieldmaps", .hcVolume, "se_fieldmap_pos"⟩,
   ⟨.niiWrangler, "ep_echo_spacings", .hcVolume, "fieldmap_echo_spacing"⟩,
   ⟨.niiWrangler, "ep_unwarp_dirs", .hcVolume, "unwarp_dir"⟩,
   ⟨.hcPostFS, "grayordinates_res", .hcVolume, "fmri_res"⟩,
   ⟨.hcVolume, "subject", .hcSurface, "subject"⟩,
   ⟨.hcVolume, "bold_name", .hcSurface, "bold_name"⟩,
   ⟨.hcPreFS, "study_dir", .hcSurface, "study_dir"⟩,
   ⟨.hcPostFS, "low_res_mesh", .hcSurface, "low_res_mesh"⟩,
   ⟨.hcPostFS, "grayordinates_res", .hcSurface, "fmri_res"⟩,
   ⟨.hcPostFS, "grayordinates_res", .hcSurface, "grayordinates_res"⟩,
   ⟨.hcSurface, "study_dir", .dataSink, "preprocessed"⟩]

/-- HCPrepWorkflow.connect_nodes (pipe.py lines 151-201): clear the graph,
touch every stage accessor (creating any stage not yet memoized), then
declare the complete fixed edge list. -/
def connect_nodes (s : WState) : WState :=
  let s1 := clear_nodes s
  let s2 := allStages.foldl (fun t i => ensureStage i t) s1
  { s2 with graphNodes := allStages, edges := fixedEdges }

/-- HCPrepWorkflow.run (pipe.py lines 138-140): connect_nodes, then delegate
to the external execution engine, which consumes the wired state.  The
engine is out of scope, so run returns the state handed to it. -/
def runWorkflow (s : WState) : WState :=
  connect_nodes s

/-- HCPrepWorkflow.write_graph (pipe.py lines 142-144): connect_nodes, then
delegate to the external graph renderer, which consumes the wired state. -/
def write_graph (s : WState) : WState :=
  connect_nodes s

/-- The topology enumerated in spec section 6, written from the words of the
spec: stage names are translated through the stage dictionary the spec uses
(subject-identity is the subjects node, discovery the dicom grabber, gather,
select, convert, info the dicom helper nodes, classify the nii wrangler,
pre_structural, structural, post_structural the three freesurfer stages,
volume, surface, sink), while the slot names are taken literally as the spec
writes them, including the pre-structural edges the spec declares to carry
matching names on both ends. -/
def specTopologyEdges : List Edge :=
  [⟨.subjectsNode, "subject", .dicomGrabber, "subject"⟩,
   ⟨.dicomGrabber, "files", .dicomGather, "files"⟩,
   ⟨.dicomGather, "links", .dicomSelect, "inlist"⟩,
   ⟨.dicomSelect, "out", .dicomConvert, "source_names"⟩,
   ⟨.dicomGather, "links", .dicomInfo, "files"⟩,
   ⟨.dicomConvert, "converted_files", .niiWrangler, "nii_files"⟩,
   ⟨.dicomInfo, "info", .niiWrangler, "dicom_info"⟩,
   ⟨.subjectsNode, "subject", .hcPreFS, "subject"⟩,
   ⟨.niiWrangler, "t1_structs", .hcPreFS, "t1_structs"⟩,
   ⟨.niiWrangler, "t2_structs", .hcPreFS, "t2_structs"⟩,
   ⟨.niiWrangler, "mag_fieldmap", .hcPreFS, "mag_fieldmap"⟩,
   ⟨.niiWrangler, "phase_fieldmap", .hcPreFS, "phase_fieldmap"⟩,
   ⟨.niiWrangler, "fieldmap_te", .hcPreFS, "fieldmap_te"⟩,
   ⟨.niiWrangler, "t1_sample_spacing", .hcPreFS, "t1_sample_spacing"⟩,
   ⟨.niiWrangler, "t2_sample_spacing", .hcPreFS, "t2_sample_spacing"⟩,
   ⟨.hcPreFS, "subject", .hcFS, "subject"⟩,
   ⟨.hcPreFS, "subject_t1_dir", .hcFS, "subject_t1_dir"⟩,
   ⟨.hcPreFS, "t1_acpc_dc_restore", .hcFS, "t1_acpc_dc_restore"⟩,
   ⟨.hcPreFS, "t1_acpc_dc_restore_brain", .hcFS, "t1_acpc_dc_restore_brain"⟩,
   ⟨.hcPreFS, "t2_acpc_dc_restore", .hcFS, "t2_acpc_dc_restore"⟩,
   ⟨.hcFS, "subject", .hcPostFS, "subject"⟩,
   ⟨.hcPreFS, "study_dir", .hcPostFS, "study_dir"⟩,
   ⟨.hcPostFS, "subject", .hcVolume, "subject"⟩,
   ⟨.hcPreFS, "study_dir", .hcVolume, "study_dir"⟩,
   ⟨.niiWrangler, "bold_names", .hcVolume, "bold_name"⟩,
   ⟨.niiWrangler, "bolds", .hcVolume, "bold_img"⟩,
   ⟨.niiWrangler, "sb_refs", .hcVolume, "bold_scout"⟩,
   ⟨.niiWrangler, "neg_fieldmaps", .hcVolume, "se_fieldmap_neg"⟩,
   ⟨.niiWrangler, "pos_fieldmaps", .hcVolume, "se_fieldmap_pos"⟩,
   ⟨.niiWrangler, "ep_echo_spacings", .hcVolume, "fieldmap_echo_spacing"⟩,
   ⟨.niiWrangler, "ep_unwarp_dirs", .hcVolume, "unwarp_dir"⟩,
   ⟨.hcPostFS, "grayordinates_res", .hcVolume, "fmri_res"⟩,
   ⟨.hcVolume, "subject", .hcSurface, "subject"⟩,
   ⟨.hcVolume, "bold_name", .hcSurface, "bold_name"⟩,
   ⟨.hcPreFS, "study_dir", .hcSurface, "study_dir"⟩,
   ⟨.hcPostFS, "low_res_mesh", .hcSurface, "low_res_mesh"⟩,
   ⟨.hcPostFS, "grayordinates_res", .hcSurface, "fmri_res"⟩,
   ⟨.hcPostFS, "grayordinates_res", .hcSurface, "grayordinates_res"⟩,
   ⟨.hcSurface, "study_dir", .dataSink, "preprocessed"⟩]

/-- The classification result categories that are mutually fan-out-linked
(the outputs of the nii wrangler that feed the fan-out slots of the volume
and surface stages, spec sections 4.2 and 6). -/
structure ClassifyResult where
  bold_names : List String
  bolds : List String
  sb_refs : List String
  pos_fieldmaps : List String
  neg_fieldmaps : List String
  ep_echo_spacings : List String
  ep_unwarp_dirs : List String
deriving DecidableEq, Repr

/-- The fan-out-linked sequences of a classification result, in the order
the volume stage consumes them. -/
def linkedSeqs (r : ClassifyResult) : List (List String) :=
  [r.bold_names, r.bolds, r.sb_refs, r.pos_fieldmaps, r.neg_fieldmaps,
   r.ep_echo_spacings, r.ep_unwarp_dirs]

/-- The alignment invariant of spec section 4.2: all mutually
fan-out-linked sequences have the same length. -/
def sameLengths (r : ClassifyResult) : Bool :=
  (linkedSeqs r).all (fun l => l.length == r.bold_names.length)

/-- Modelled from the spec: the fan-out expansion is performed by the
external execution engine, not by this repository (spec sections 4.2 and
4.4 say mismatched fan-out lengths are an error discovered by the execution
engine).  When all sequences share length N it yields the N aligned
instances, each holding the positionally matching elements; on mismatched
lengths it surfaces an AlignmentError-class condition and never truncates
or zips with wraparound. -/
def fanOutExpand (seqs : List (List String)) :
    Except String (List (List String)) :=
  match seqs with
  | [] => .ok []
  | l :: rest =>
      if rest.all (fun m => m.length == l.length) then
        .ok ((List.range l.length).map
          (fun k => (l :: rest).map (fun m => m.getD k "")))
      else .error "AlignmentError: fan-out linked sequences have mismatched lengths"

/-- A concrete non-empty configuration used by several concrete
evaluations: the configuration of the spec section 8 example. -/
def cfgExample : Config :=
  [("general",
    [("subjects", .strList ["101", "102"]),
     ("subject_dir", .str "/data/raw"),
     ("dicom_template", .str "%s/*.dcm")])]

/-- A concrete configuration lacking general.subjects (and any series
section), but carrying a source directory. -/
def cfgNoSubjects : Config :=
  [("general", [("subject_dir", .str "/data/raw")])]

/-- The fan-out declaration of a stage as currently held by the composer:
the iterfield of the memoized instance, or of the instance the next access
would construct. -/
def iterOf (s : WState) (i : StageId) : List String :=
  ((s.nodes i).getD (defaultNode i)).iterfield

theorem stage_fst (i : StageId) (s : WState) :
    (stage i s).1 = (s.nodes i).getD (defaultNode i) := by
  cases h : s.nodes i <;> simp [stage, h]

theorem stage_of_some (i : StageId) (s : WState) (n : Node)
    (h : s.nodes i = some n) : stage i s = (n, s) := by
  simp [stage, h]

theorem stage_snd_nodes_self (i : StageId) (s : WState) :
    ((stage i s).2).nodes i = some ((stage i s).1) := by
  cases h : s.nodes i <;> simp [stage, h]

theorem stage_snd_nodes_ne (i j : StageId) (s : WState) (h : j ≠ i) :
    ((stage i s).2).nodes j = s.nodes j := by
  cases hn : s.nodes i <;> simp [stage, hn, Function.update_noteq h]

theorem stage_snd_edges (i : StageId) (s : WState) :
    ((stage i s).2).edges = s.edges := by
  cases h : s.nodes i <;> simp [stage, h]

theorem modStage_nodes_self (i : StageId) (f : Node → Node) (s : WState) :
    (modStage i f s).nodes i = some (f ((s.nodes i).getD (defaultNode i))) := by
  simp [modStage, Function.update_same, stage_fst]

theorem modStage_nodes_ne (i j : StageId) (f : Node → Node) (s : WState)
    (h : j ≠ i) : (modStage i f s).nodes j = s.nodes j := by
  simp [modStage, Function.update_noteq h, stage_snd_nodes_ne i j s h]

theorem modStage_edges (i : StageId) (f : Node → Node) (s : WState) :
    (modStage i f s).edges = s.edges := by
  simp [modStage, stage_snd_edges]

theorem iterOf_modStage (i j : StageId) (f : Node → Node) (s : WState)
    (hf : ∀ n, (f n).iterfield = n.iterfield) :
    iterOf (modStage i f s) j = iterOf s j := by
  by_cases h : j = i
  · subst h; rw [iterOf, modStage_nodes_self]; simp [hf, iterOf]
  · rw [iterOf, modStage_nodes_ne i j f s h, iterOf]

theorem apply_dict_to_obj_cons (kv : String × Prim) (d : ConfSection)
    (n : Node) (sk : List String) :
    apply_dict_to_obj (kv :: d) n sk =
      apply_dict_to_obj d
        (if kv.1 ∈ sk then n else setInput kv.1 (.prim kv.2) n) sk := rfl

theorem apply_dict_to_obj_iterfield (d : ConfSection) (n : Node)
    (sk : List String) :
    (apply_dict_to_obj d n sk).iterfield = n.iterfield := by
  induction d generalizing n with
  | nil => rfl
  | cons kv rest ih =>
      rw [apply_dict_to_obj_cons, ih]
      split <;> rfl

theorem iterOf_applyIfTruthy (ov : Option Prim) (i : StageId)
    (f : Prim → Node → Node) (s : WState) (j : StageId)
    (hf : ∀ v n, (f v n).iterfield = n.iterfield) :
    iterOf (applyIfTruthy ov i f s) j = iterOf s j := by
  cases ov with
  | none => rfl
  | some v =>
      simp only [applyIfTruthy]
      by_cases hv : v.truthy = true
      · rw [if_pos hv]; exact iterOf_modStage i j (f v) s (hf v)
      · rw [if_neg hv]

theorem nodes_applyIfTruthy_ne (ov : Option Prim) (i : StageId)
    (f : Prim → Node → Node) (s : WState) (j : StageId) (h : j ≠ i) :
    (applyIfTruthy ov i f s).nodes j = s.nodes j := by
  cases ov with
  | none => rfl
  | some v =>
      simp only [applyIfTruthy]
      by_cases hv : v.truthy = true
      · rw [if_pos hv]; exact modStage_nodes_ne i j (f v) s h
      · rw [if_neg hv]

theorem edges_applyIfTruthy (ov : Option Prim) (i : StageId)
    (f : Prim → Node → Node) (s : WState) :
    (applyIfTruthy ov i f s).edges = s.edges := by
  cases ov with
  | none => rfl
  | some v =>
      simp only [applyIfTruthy]
      by_cases hv : v.truthy = true
      · rw [if_pos hv]; exact modStage_edges i (f v) s
      · rw [if_neg hv]

theorem applyTempsAndFiles_iterfield (temps c_files : ConfSection) (n : Node) :
    (applyTempsAndFiles temps c_files n).iterfield = n.iterfield := by
  unfold applyTempsAndFiles
  rw [apply_dict_to_obj_iterfield, apply_dict_to_obj_iterfield]

theorem iterOf_applySubjectsOverride (s : WState) (j : StageId) :
    iterOf (applySubjectsOverride s) j = iterOf s j :=
  iterOf_applyIfTruthy _ _ _ s j (fun _ _ => rfl)

theorem iterOf_applyGrabberOverrides (s : WState) (j : StageId) :
    iterOf (applyGrabberOverrides s) j = iterOf s j := by
  simp only [applyGrabberOverrides]
  rw [iterOf_applyIfTruthy, iterOf_applyIfTruthy]
  all_goals exact fun _ _ => rfl

theorem iterOf_applySeriesOverride (s : WState) (j : StageId) :
    iterOf (applySeriesOverride s) j = iterOf s j := by
  simp only [applySeriesOverride]
  split
  · rfl
  · exact iterOf_modStage _ _ _ _ (fun _ => rfl)

theorem iterOf_applyTemplatesAndConfigFiles (s : WState) (j : StageId) :
    iterOf (applyTemplatesAndConfigFiles s) j = iterOf s j := by
  simp only [applyTemplatesAndConfigFiles, toolStages, List.foldl_cons,
    List.foldl_nil]
  rw [iterOf_modStage _ _ _ _ (applyTempsAndFiles_iterfield _ _),
      iterOf_modStage _ _ _ _ (applyTempsAndFiles_iterfield _ _),
      iterOf_modStage _ _ _ _ (applyTempsAndFiles_iterfield _ _),
      iterOf_modStage _ _ _ _ (applyTempsAndFiles_iterfield _ _),
      iterOf_modStage _ _ _ _ (applyTempsAndFiles_iterfield _ _)]

theorem iterOf_applyCommands (s : WState) (j : StageId) :
    iterOf (applyCommands s) j = iterOf s j := by
  simp only [applyCommands]
  rw [iterOf_modStage, iterOf_modStage, iterOf_modStage, iterOf_modStage,
      iterOf_modStage]
  all_goals exact fun _ => rfl

theorem iterOf_applyEnvirons (s : WState) (j : StageId) :
    iterOf (applyEnvirons s) j = iterOf s j := by
  simp only [applyEnvirons]
  rw [iterOf_modStage, iterOf_modStage, iterOf_modStage, iterOf_modStage,
      iterOf_modStage]
  all_goals exact fun _ => rfl

theorem iterOf_applyStageSections (s : WState) (j : StageId) :
    iterOf (applyStageSections s) j = iterOf s j := by
  simp only [applyStageSections]
  rw [iterOf_modStage _ _ _ _ (fun _ => apply_dict_to_obj_iterfield _ _ _),
      iterOf_modStage _ _ _ _ (fun _ => apply_dict_to_obj_iterfield _ _ _),
      iterOf_modStage _ _ _ _ (fun _ => apply_dict_to_obj_iterfield _ _ _),
      iterOf_modStage _ _ _ _ (fun _ => apply_dict_to_obj_iterfield _ _ _),
      iterOf_modStage _ _ _ _ (fun _ => apply_dict_to_obj_iterfield _ _ _),
      iterOf_modStage _ _ _ _ (fun _ => apply_dict_to_obj_iterfield _ _ _)]

theorem iterOf_update_nodes_from_config (s : WState) (j : StageId) :
    iterOf (update_nodes_from_config s) j = iterOf s j := by
  unfold update_nodes_from_config
  rw [iterOf_applyStageSections, iterOf_applyEnvirons, iterOf_applyCommands,
      iterOf_applyTemplatesAndConfigFiles, iterOf_applySeriesOverride,
      iterOf_applyGrabberOverrides, iterOf_applySubjectsOverride]

theorem iterOf_set_hc_config (s : WState) (v : Option Config) (j : StageId) :
    iterOf (set_hc_config s v) j = iterOf s j := by
  cases v with
  | none => rfl
  | some c =>
      simp only [set_hc_config]
      split
      · rfl
      · rw [iterOf_update_nodes_from_config]; rfl

theorem edges_applySubjectsOverride (s : WState) :
    (applySubjectsOverride s).edges = s.edges :=
  edges_applyIfTruthy _ _ _ s

theorem edges_applyGrabberOverrides (s : WState) :
    (applyGrabberOverrides s).edges = s.edges := by
  simp only [applyGrabberOverrides]
  rw [edges_applyIfTruthy, edges_applyIfTruthy]

theorem edges_applySeriesOverride (s : WState) :
    (applySeriesOverride s).edges = s.edges := by
  simp only [applySeriesOverride]
  split
  · rfl
  · exact modStage_edges _ _ _

theorem edges_applyTemplatesAndConfigFiles (s : WState) :
    (applyTemplatesAndConfigFiles s).edges = s.edges := by
  simp only [applyTemplatesAndConfigFiles, toolStages, List.foldl_cons,
    List.foldl_nil]
  rw [modStage_edges, modStage_edges, modStage_edges, modStage_edges,
      modStage_edges]

theorem edges_applyCommands (s : WState) :
    (applyCommands s).edges = s.edges := by
  simp only [applyCommands]
  rw [modStage_edges, modStage_edges, modStage_edges, modStage_edges,
      modStage_edges]

theorem edges_applyEnvirons (s : WState) :
    (applyEnvirons s).edges = s.edges := by
  simp only [applyEnvirons]
  rw [modStage_edges, modStage_edges, modStage_edges, modStage_edges,
      modStage_edges]

theorem edges_applyStageSections (s : WState) :
    (applyStageSections s).edges = s.edges := by
  simp only [applyStageSections]
  rw [modStage_edges, modStage_edges, modStage_edges, modStage_edges,
      modStage_edges, modStage_edges]

theorem edges_update_nodes_from_config (s : WState) :
    (update_nodes_from_config s).edges = s.edges := by
  unfold update_nodes_from_config
  rw [edges_applyStageSections, edges_applyEnvirons, edges_applyCommands,
      edges_applyTemplatesAndConfigFiles, edges_applySeriesOverride,
      edges_applyGrabberOverrides, edges_applySubjectsOverride]

theorem applySubjectsOverride_of_none (s : WState)
    (h : get_conf s "general" "subjects" = none) :
    applySubjectsOverride s = s := by
  unfold applySubjectsOverride
  rw [h]
  rfl

theorem nodesSub_applyGrabberOverrides (s : WState) :
    (applyGrabberOverrides s).nodes .subjectsNode = s.nodes .subjectsNode := by
  simp only [applyGrabberOverrides]
  rw [nodes_applyIfTruthy_ne _ _ _ _ _ (by decide),
      nodes_applyIfTruthy_ne _ _ _ _ _ (by decide)]

theorem nodesSub_applySeriesOverride (s : WState) :
    (applySeriesOverride s).nodes .subjectsNode = s.nodes .subjectsNode := by
  simp only [applySeriesOverride]
  split
  · rfl
  · exact modStage_nodes_ne _ _ _ _ (by decide)

theorem nodesSub_applyTemplatesAndConfigFiles (s : WState) :
    (applyTemplatesAndConfigFiles s).nodes .subjectsNode =
      s.nodes .subjectsNode := by
  simp only [applyTemplatesAndConfigFiles, toolStages, List.foldl_cons,
    List.foldl_nil]
  rw [modStage_nodes_ne _ _ _ _ (by decide), modStage_nodes_ne _ _ _ _ (by decide),
      modStage_nodes_ne _ _ _ _ (by decide), modStage_nodes_ne _ _ _ _ (by decide),
      modStage_nodes_ne _ _ _ _ (by decide)]

theorem nodesSub_applyCommands (s : WState) :
    (applyCommands s).nodes .subjectsNode = s.nodes .subjectsNode := by
  simp only [applyCommands]
  rw [modStage_nodes_ne _ _ _ _ (by decide), modStage_nodes_ne _ _ _ _ (by decide),
      modStage_nodes_ne _ _ _ _ (by decide), modStage_nodes_ne _ _ _ _ (by decide),
      modStage_nodes_ne _ _ _ _ (by decide)]

theorem nodesSub_applyEnvirons (s : WState) :
    (applyEnvirons s).nodes .subjectsNode = s.nodes .subjectsNode := by
  simp only [applyEnvirons]
  rw [modStage_nodes_ne _ _ _ _ (by decide), modStage_nodes_ne _ _ _ _ (by decide),
      modStage_nodes_ne _ _ _ _ (by decide), modStage_nodes_ne _ _ _ _ (by decide),
      modStage_nodes_ne _ _ _ _ (by decide)]

theorem nodesSub_applyStageSections (s : WState) :
    (applyStageSections s).nodes .subjectsNode = s.nodes .subjectsNode := by
  simp only [applyStageSections]
  rw [modStage_nodes_ne _ _ _ _ (by decide), modStage_nodes_ne _ _ _ _ (by decide),
      modStage_nodes_ne _ _ _ _ (by decide), modStage_nodes_ne _ _ _ _ (by decide),
      modStage_nodes_ne _ _ _ _ (by decide), modStage_nodes_ne _ _ _ _ (by decide)]

theorem nodesSub_update_nodes_from_config (s : WState)
    (h : get_conf s "general" "subjects" = none) :
    (update_nodes_from_config s).nodes .subjectsNode =
      s.nodes .subjectsNode := by
  unfold update_nodes_from_config
  rw [nodesSub_applyStageSections, nodesSub_applyEnvirons, nodesSub_applyCommands,
      nodesSub_applyTemplatesAndConfigFiles, nodesSub_applySeriesOverride,
      nodesSub_applyGrabberOverrides, applySubjectsOverride_of_none s h]

theorem lookupKey_setAssoc_self (m : List (String × Value)) (k : String)
    (v : Value) : lookupKey (setAssoc m k v) k = some v := by
  induction m with
  | nil => simp [setAssoc, lookupKey]
  | cons p rest ih =>
      simp only [setAssoc]
      by_cases h : p.1 = k
      · rw [if_pos h]; simp [lookupKey]
      · rw [if_neg h]; simp only [lookupKey]; rw [if_neg h]; exact ih

theorem lookupKey_setAssoc_ne (m : List (String × Value)) (k : String)
    (v : Value) (k2 : String) (h : k2 ≠ k) :
    lookupKey (setAssoc m k v) k2 = lookupKey m k2 := by
  induction m with
  | nil => simp [setAssoc, lookupKey, Ne.symm h]
  | cons p rest ih =>
      simp only [setAssoc]
      by_cases hp : p.1 = k
      · rw [if_pos hp]
        simp only [lookupKey]
        rw [if_neg (Ne.symm h)]
        have hne : ¬p.1 = k2 := by rw [hp]; exact Ne.symm h
        rw [if_neg hne]
      · rw [if_neg hp]
        simp only [lookupKey]
        by_cases hpk : p.1 = k2
        · rw [if_pos hpk, if_pos hpk]
        · rw [if_neg hpk, if_neg hpk]; exact ih

theorem lookupKey_setInput_self (n : Node) (k : String) (v : Value) :
    lookupKey (setInput k v n).inputs k = some v :=
  lookupKey_setAssoc_self n.inputs k v

theorem lookupKey_setInput_ne (n : Node) (k : String) (v : Value)
    (k2 : String) (h : k2 ≠ k) :
    lookupKey (setInput k v n).inputs k2 = lookupKey n.inputs k2 :=
  lookupKey_setAssoc_ne n.inputs k v k2 h

theorem apply_dict_to_obj_lookup_skip (d : ConfSection) (sk : List String)
    (k : String) (h : k ∈ sk) :
    ∀ n : Node,
      lookupKey (apply_dict_to_obj d n sk).inputs k = lookupKey n.inputs k := by
  induction d with
  | nil => intro n; rfl
  | cons kv rest ih =>
      intro n
      rw [apply_dict_to_obj_cons]
      by_cases hk : kv.1 ∈ sk
      · rw [if_pos hk]; exact ih n
      · rw [if_neg hk]
        rw [ih (setInput kv.1 (.prim kv.2) n)]
        exact lookupKey_setInput_ne n kv.1 (.prim kv.2) k (fun he => hk (he ▸ h))

theorem apply_dict_to_obj_lookup_notmem (d : ConfSection) (sk : List String)
    (k : String) :
    ∀ n : Node, ¬k ∈ d.map Prod.fst →
      lookupKey (apply_dict_to_obj d n sk).inputs k = lookupKey n.inputs k := by
  induction d with
  | nil => intro n _; rfl
  | cons kv rest ih =>
      intro n h
      rw [apply_dict_to_obj_cons]
      have hk1 : k ≠ kv.1 := fun he => h (by simp [he])
      have hrest : ¬k ∈ rest.map Prod.fst := fun hm => h (by simp [hm])
      by_cases hk : kv.1 ∈ sk
      · rw [if_pos hk]; exact ih n hrest
      · rw [if_neg hk]
        rw [ih _ hrest]
        exact lookupKey_setInput_ne n kv.1 (.prim kv.2) k hk1

theorem apply_dict_to_obj_lookup_mem (d : ConfSection) (sk : List String)
    (k : String) (v : Prim) :
    ∀ n : Node, (d.map Prod.fst).Nodup → ¬k ∈ sk → (k, v) ∈ d →
      lookupKey (apply_dict_to_obj d n sk).inputs k = some (.prim v) := by
  induction d with
  | nil => intro n _ _ hm; cases hm
  | cons kv rest ih =>
      intro n hnd hks hm
      rw [apply_dict_to_obj_cons]
      rcases List.mem_cons.mp hm with he | hr
      · have hk1 : kv.1 = k := by rw [← he]
        have hv : kv.2 = v := by rw [← he]
        have hhead : kv.1 ∉ rest.map Prod.fst :=
          (List.nodup_cons.mp (by simpa using hnd)).1
        have hknotin : ¬k ∈ rest.map Prod.fst := by rw [← hk1]; exact hhead
        rw [if_neg (by rw [hk1]; exact hks)]
        rw [apply_dict_to_obj_lookup_notmem rest sk k _ hknotin]
        rw [hk1, hv]
        exact lookupKey_setInput_self n k (.prim v)
      · have hhead : kv.1 ∉ rest.map Prod.fst :=
          (List.nodup_cons.mp (by simpa using hnd)).1
        have hndrest : (rest.map Prod.fst).Nodup :=
          (List.nodup_cons.mp (by simpa using hnd)).2
        have hk1 : k ≠ kv.1 := by
          intro he2
          exact hhead (he2 ▸ List.mem_map.mpr ⟨(k, v), hr, rfl⟩)
        by_cases hk : kv.1 ∈ sk
        · rw [if_pos hk]; exact ih n hndrest hks hr
        · rw [if_neg hk]; exact ih _ hndrest hks hr

theorem nodes_applyTemplatesAndConfigFiles_mem (s : WState) (i : StageId)
    (hi : i ∈ toolStages) :
    (applyTemplatesAndConfigFiles s).nodes i =
      some (applyTempsAndFiles
        ((lookupKey (s.hcConfig.getD []) "templates").getD [])
        ((lookupKey (s.hcConfig.getD []) "config_files").getD [])
        ((s.nodes i).getD (defaultNode i))) := by
  fin_cases hi <;>
    simp only [applyTemplatesAndConfigFiles, toolStages, List.foldl_cons,
      List.foldl_nil] <;>
    (repeat rw [modStage_nodes_ne _ _ _ _ (by decide)]) <;>
    rw [modStage_nodes_self] <;>
    (repeat rw [modStage_nodes_ne _ _ _ _ (by decide)])

/-- The edge set declared by connect_nodes is the fixed list, whatever the
prior state: the final record update installs it after the unconditional
clear. -/
theorem edges_connect_nodes (t : WState) :
    (connect_nodes t).edges = fixedEdges := rfl

/-- A templates section used by concrete evaluations: one ordinary template
value plus an attempt to override the templates_dir parameter. -/
def tempsExample : ConfSection :=
  [("t1_template", .str "MNI152_T1.nii.gz"),
   ("templates_dir", .str "/custom/dir")]

/-- A configuration carrying only a templates section. -/
def cfgTemplates : Config := [("templates", tempsExample)]

/-- A classification result whose fan-out-linked sequences have mismatched
lengths: two functional run names but only one of everything else. -/
def mismatchedClassifyResult : ClassifyResult :=
  ⟨["rfMRI_REST1", "rfMRI_REST2"], ["b1.nii"], ["sb1.nii"], ["pos1.nii"],
   ["neg1.nii"], ["0.00058"], ["x"]⟩

/-- C1, counterexample.  The claim states that assigning a non-empty
ConfigDocument ends with a call to rewire, so that immediately after the
assignment the graph carries the complete fixed edge set.  On the code the
hc_config setter only runs update_nodes_from_config, which never touches
the graph: after assigning the non-empty example configuration to a fresh
composer the edge set is still empty, not the fixed edge set. -/
theorem assignment_leaves_graph_unwired :
    (set_hc_config initState (some cfgExample)).edges = [] ∧ fixedEdges ≠ [] := by
  decide

/-- C1, amended.  Assigning a non-empty ConfigDocument through the
hc_config setter triggers exactly the full stage-parameter rebind sequence
(update_nodes_from_config) and nothing else: it does not rewire, and the
edge set after the assignment is whatever it was before.  Rewiring happens
later, inside run and write_graph. -/
theorem hc_config_assignment_rebinds_without_rewire (s : WState) (c : Config)
    (h : ¬c = []) :
    set_hc_config s (some c) =
      update_nodes_from_config { s with hcConfig := some c }
    ∧ (set_hc_config s (some c)).edges = s.edges := by
  have hne : c.isEmpty = false := by
    cases c with
    | nil => exact absurd rfl h
    | cons a l => rfl
  have h1 : set_hc_config s (some c) =
      update_nodes_from_config { s with hcConfig := some c } := by
    simp only [set_hc_config]
    rw [hne]
    rw [if_neg Bool.false_ne_true]
  refine ⟨h1, ?_⟩
  rw [h1, edges_update_nodes_from_config]

theorem hc_config_assignment_rebinds_without_rewire_witness :
    ¬cfgExample = []
    ∧ (set_hc_config initState (some cfgExample) =
         update_nodes_from_config { initState with hcConfig := some cfgExample }
       ∧ (set_hc_config initState (some cfgExample)).edges = initState.edges) :=
  ⟨by decide,
   hc_config_assignment_rebinds_without_rewire initState cfgExample (by decide)⟩

/-- C2, counterexample.  The claim states that applying a ConfigDocument
that lacks the required general.subjects value fails fast with a
ConfigurationError before any stage mutation, leaving every stage parameter
unchanged.  On the code update_nodes_from_config has no failure path at
all: applying a document that lacks general.subjects simply skips the
subjects override and proceeds, here mutating the dicom grabber (which did
not even exist before the call) by installing its base_directory. -/
theorem missing_required_value_still_mutates :
    conf_get cfgNoSubjects "general" "subjects" = none
    ∧ lookupKey (((set_hc_config initState (some cfgNoSubjects)).nodes
          .dicomGrabber).getD (defaultNode .dicomGrabber)).inputs
        "base_directory" = some (.prim (.str "/data/raw"))
    ∧ initState.nodes .dicomGrabber = none := by
  decide

/-- C2, amended.  Applying a ConfigDocument that lacks general.subjects
does not fail and is not fatal: the missing value is skipped, so the
subjects stage is left exactly as it was (in particular no iteration set is
installed), while the rest of the rebind sequence still runs and may mutate
other stages.  Validation is a separate concern of the command-line entry
point, performed before a workflow is ever built. -/
theorem missing_subjects_skipped_not_fatal (s : WState) (c : Config)
    (h : conf_get c "general" "subjects" = none) :
    (set_hc_config s (some c)).nodes .subjectsNode = s.nodes .subjectsNode := by
  simp only [set_hc_config]
  by_cases hc : c.isEmpty = true
  · rw [if_pos hc]
  · rw [if_neg hc]
    have hg : get_conf { s with hcConfig := some c } "general" "subjects" =
        none := by
      simp only [get_conf]
      rw [if_neg hc]
      exact h
    rw [nodesSub_update_nodes_from_config _ hg]

theorem missing_subjects_skipped_not_fatal_witness :
    conf_get cfgNoSubjects "general" "subjects" = none
    ∧ (set_hc_config initState (some cfgNoSubjects)).nodes .subjectsNode =
        initState.nodes .subjectsNode :=
  ⟨by decide,
   missing_subjects_skipped_not_fatal initState cfgNoSubjects (by decide)⟩

/-- C3.  For every composer state, rewire (connect_nodes) composed with
itself any number n of times, n at least one, yields exactly the same edge
set as a single call: every invocation first clears the whole graph and
then re-declares the full fixed edge list, so repetition is idempotent. -/
theorem rewire_idempotent (s : WState) (n : Nat) (h : 1 ≤ n) :
    (connect_nodes^[n] s).edges = (connect_nodes s).edges := by
  cases n with
  | zero => exact absurd h (by omega)
  | succ m =>
      rw [Function.iterate_succ_apply']
      rw [edges_connect_nodes, edges_connect_nodes]

theorem rewire_idempotent_witness :
    1 ≤ 3
    ∧ (connect_nodes^[3] initState).edges = (connect_nodes initState).edges :=
  ⟨by decide, rewire_idempotent initState 3 (by decide)⟩

/-- C4, counterexample.  The claim states that the edge set declared by
rewire is exactly the topology enumerated in spec section 6.  Taking the
spec enumeration literally (with its stage dictionary), the pre-structural
edges are declared there with matching slot names on both ends, but the
code connects classify.t1_structs to the t1_files input of the
pre-structural stage: the literal spec edge is absent from the wired graph
and the code edge is not in the spec enumeration. -/
theorem spec_slot_names_diverge :
    Edge.mk .niiWrangler "t1_structs" .hcPreFS "t1_structs" ∈ specTopologyEdges
    ∧ ¬Edge.mk .niiWrangler "t1_structs" .hcPreFS "t1_structs" ∈
        (connect_nodes (mkWorkflow (some cfgExample))).edges
    ∧ Edge.mk .niiWrangler "t1_structs" .hcPreFS "t1_files" ∈
        (connect_nodes (mkWorkflow (some cfgExample))).edges := by
  decide

/-- C4, amended.  The edge set declared by rewire is the fixed hard-coded
topology fixedEdges, identical for every composer state and hence for
every configuration: no edge depends on configuration content.  It agrees
with the spec section 6 enumeration except in exactly five slot names: the
discovery output slot is named dicom, not files, and four pre-structural
destination slots are named t1_files, t2_files, fieldmap_magnitude and
fieldmap_phase instead of repeating the classify output names. -/
theorem edge_set_fixed_and_config_independent :
    (∀ s : WState, (connect_nodes s).edges = fixedEdges)
    ∧ specTopologyEdges.filter (fun e => !(fixedEdges.contains e)) =
        [⟨.dicomGrabber, "files", .dicomGather, "files"⟩,
         ⟨.niiWrangler, "t1_structs", .hcPreFS, "t1_structs"⟩,
         ⟨.niiWrangler, "t2_structs", .hcPreFS, "t2_structs"⟩,
         ⟨.niiWrangler, "mag_fieldmap", .hcPreFS, "mag_fieldmap"⟩,
         ⟨.niiWrangler, "phase_fieldmap", .hcPreFS, "phase_fieldmap"⟩]
    ∧ fixedEdges.filter (fun e => !(specTopologyEdges.contains e)) =
        [⟨.dicomGrabber, "dicom", .dicomGather, "files"⟩,
         ⟨.niiWrangler, "t1_structs", .hcPreFS, "t1_files"⟩,
         ⟨.niiWrangler, "t2_structs", .hcPreFS, "t2_files"⟩,
         ⟨.niiWrangler, "mag_fieldmap", .hcPreFS, "fieldmap_magnitude"⟩,
         ⟨.niiWrangler, "phase_fieldmap", .hcPreFS, "fieldmap_phase"⟩] :=
  ⟨fun s => edges_connect_nodes s, by decide, by decide⟩

/-- C5.  The volume stage is constructed with exactly the seven fan-out
slots bold_name, bold_img, bold_scout, se_fieldmap_pos, se_fieldmap_neg,
unwarp_dir and fieldmap_echo_spacing, the surface stage with exactly
bold_name and subject, and no reconfiguration (assignment of any
configuration, or of none) ever changes the fan-out declaration of any
stage. -/
theorem fanout_slots_fixed_at_construction :
    (defaultNode .hcVolume).iterfield =
      ["bold_name", "bold_img", "bold_scout", "se_fieldmap_pos",
       "se_fieldmap_neg", "unwarp_dir", "fieldmap_echo_spacing"]
    ∧ (defaultNode .hcSurface).iterfield = ["bold_name", "subject"]
    ∧ ∀ (s : WState) (v : Option Config) (i : StageId),
        iterOf (set_hc_config s v) i = iterOf s i :=
  ⟨rfl, rfl, fun s v i => iterOf_set_hc_config s v i⟩

/-- C6.  Every stage accessor is lazy and memoized: on a state where the
stage is not yet cached, the first access constructs it with its declared
defaults, a repeated access returns the very same instance without touching
the state again, and a mutation applied through the accessor is what every
later access observes. -/
theorem stage_accessor_memoized (i : StageId) (s : WState) (f : Node → Node)
    (h : s.nodes i = none) :
    (stage i s).1 = defaultNode i
    ∧ stage i (stage i s).2 = ((stage i s).1, (stage i s).2)
    ∧ (stage i (modStage i f (stage i s).2)).1 = f ((stage i s).1) := by
  refine ⟨?_, ?_, ?_⟩
  · rw [stage_fst, h]; rfl
  · exact stage_of_some i _ _ (stage_snd_nodes_self i s)
  · rw [stage_fst, modStage_nodes_self, stage_snd_nodes_self i s]
    simp

theorem stage_accessor_memoized_witness :
    initState.nodes .hcVolume = none
    ∧ ((stage .hcVolume initState).1 = defaultNode .hcVolume
       ∧ stage .hcVolume (stage .hcVolume initState).2 =
           ((stage .hcVolume initState).1, (stage .hcVolume initState).2)
       ∧ (stage .hcVolume
            (modStage .hcVolume (setInput "full_command" (.prim (.str "cmd")))
              (stage .hcVolume initState).2)).1 =
           setInput "full_command" (.prim (.str "cmd"))
             ((stage .hcVolume initState).1)) :=
  ⟨rfl,
   stage_accessor_memoized .hcVolume initState
     (setInput "full_command" (.prim (.str "cmd"))) rfl⟩

/-- C7.  Applying the templates section to any of the five external-tool
stages (the operation at pipe.py line 115, apply_dict_to_obj with skip
list templates_dir) leaves the templates_dir parameter of the stage
unchanged, even when the templates mapping contains a templates_dir key,
while every other key of the mapping lands on the stage with its template
value. -/
theorem templates_dir_skipped (c : Config) (temps : ConfSection) (s : WState)
    (i : StageId) (hc : s.hcConfig = some c)
    (ht : lookupKey c "templates" = some temps)
    (hcf : lookupKey c "config_files" = none) (hi : i ∈ toolStages)
    (hnd : (temps.map Prod.fst).Nodup) :
    lookupKey (((applyTemplatesAndConfigFiles s).nodes i).getD
        (defaultNode i)).inputs "templates_dir"
      = lookupKey ((s.nodes i).getD (defaultNode i)).inputs "templates_dir"
    ∧ ∀ k v, k ≠ "templates_dir" → (k, v) ∈ temps →
        lookupKey (((applyTemplatesAndConfigFiles s).nodes i).getD
            (defaultNode i)).inputs k = some (.prim v) := by
  have hn := nodes_applyTemplatesAndConfigFiles_mem s i hi
  rw [hc] at hn
  simp only [Option.getD_some] at hn
  rw [ht, hcf] at hn
  simp only [Option.getD_some, Option.getD_none] at hn
  have heq : applyTempsAndFiles temps [] ((s.nodes i).getD (defaultNode i))
      = apply_dict_to_obj temps ((s.nodes i).getD (defaultNode i))
          ["templates_dir"] := rfl
  rw [hn]
  simp only [Option.getD_some, heq]
  constructor
  · exact apply_dict_to_obj_lookup_skip temps ["templates_dir"]
      "templates_dir" (by decide) _
  · intro k v hk hm
    exact apply_dict_to_obj_lookup_mem temps ["templates_dir"] k v _ hnd
      (by simpa using hk) hm

theorem templates_dir_skipped_witness :
    (({ initState with hcConfig := some cfgTemplates } : WState).hcConfig =
        some cfgTemplates
     ∧ lookupKey cfgTemplates "templates" = some tempsExample
     ∧ lookupKey cfgTemplates "config_files" = none
     ∧ StageId.hcPreFS ∈ toolStages
     ∧ (tempsExample.map Prod.fst).Nodup)
    ∧ (lookupKey (((applyTemplatesAndConfigFiles
          { initState with hcConfig := some cfgTemplates }).nodes
            .hcPreFS).getD (defaultNode .hcPreFS)).inputs "templates_dir"
        = lookupKey ((({ initState with hcConfig := some cfgTemplates } :
              WState).nodes .hcPreFS).getD (defaultNode .hcPreFS)).inputs
            "templates_dir"
       ∧ ∀ k v, k ≠ "templates_dir" → (k, v) ∈ tempsExample →
           lookupKey (((applyTemplatesAndConfigFiles
               { initState with hcConfig := some cfgTemplates }).nodes
                 .hcPreFS).getD (defaultNode .hcPreFS)).inputs k =
             some (.prim v)) :=
  ⟨⟨rfl, by decide, by decide, by decide, by decide⟩,
   templates_dir_skipped cfgTemplates tempsExample
     { initState with hcConfig := some cfgTemplates } .hcPreFS rfl
     (by decide) (by decide) (by decide) (by decide)⟩

/-- C8, counterexample.  The claim states that for a classification result
whose fan-out-linked sequences have unequal lengths an AlignmentError-class
condition is raised before the graph is wired.  On the code, wiring is
performed by connect_nodes, which consumes no classification data and has
no failure path: with a mismatched classification result in hand, wiring a
composer still completes and installs the complete fixed edge set, so no
error of any kind occurs before or during wiring. -/
theorem mismatch_not_raised_before_wiring :
    sameLengths mismatchedClassifyResult = false
    ∧ (connect_nodes (mkWorkflow (some cfgExample))).edges = fixedEdges
    ∧ fixedEdges ≠ [] := by
  decide

/-- C8, amended.  The wiring engine performs no alignment check: rewire
always completes with the full fixed edge set.  A mismatch between the
fan-out-linked sequences is surfaced later, by the external execution
engine when it expands the fan-out (spec sections 4.2 and 4.4): the
expansion of mismatched sequences yields an AlignmentError-class condition
and never a silently truncated or zipped result. -/
theorem mismatch_surfaced_by_engine_after_wiring (r : ClassifyResult)
    (h : sameLengths r = false) :
    fanOutExpand (linkedSeqs r) =
      .error "AlignmentError: fan-out linked sequences have mismatched lengths"
    ∧ ∀ s : WState, (connect_nodes s).edges = fixedEdges := by
  have key : sameLengths r =
      ([r.bolds, r.sb_refs, r.pos_fieldmaps, r.neg_fieldmaps,
        r.ep_echo_spacings, r.ep_unwarp_dirs].all
        (fun m => m.length == r.bold_names.length)) := by
    unfold sameLengths linkedSeqs
    simp [List.all_cons]
  constructor
  · simp only [fanOutExpand, linkedSeqs]
    rw [if_neg (by rw [← key, h]; exact Bool.false_ne_true)]
  · exact fun s => edges_connect_nodes s

theorem mismatch_surfaced_by_engine_after_wiring_witness :
    sameLengths mismatchedClassifyResult = false
    ∧ (fanOutExpand (linkedSeqs mismatchedClassifyResult) =
        .error "AlignmentError: fan-out linked sequences have mismatched lengths"
       ∧ ∀ s : WState, (connect_nodes s).edges = fixedEdges) :=
  ⟨by decide,
   mismatch_surfaced_by_engine_after_wiring mismatchedClassifyResult
     (by decide)⟩

/-- C9, counterexample.  The claim states that the spec section 8 example
configuration (subjects, subject_dir, dicom_template, no series section)
yields a classification stage whose built-in default classification rules
are overridden by an empty rule map.  On the code, the series stanza is
guarded by Python truthiness: an absent series section yields an empty
mapping, the guard fails, and no series_map override is installed at all,
so the classification stage keeps its built-in defaults instead of having
them overridden by an empty map. -/
theorem example_config_series_map_not_overridden :
    lookupKey (((mkWorkflow (some cfgExample)).nodes .niiWrangler).getD
        (defaultNode .niiWrangler)).inputs "series_map" = none
    ∧ (none : Option Value) ≠ some (.map []) := by
  decide

/-- C9, amended.  Applying the spec section 8 example configuration to a
fresh composer yields a subjects stage iterating over exactly the two
subjects, a discovery stage with base directory /data/raw and field
template mapping dicom to the given template, and a classification stage
on which no series override is installed (its series_map parameter is left
untouched, keeping the built-in default rules). -/
theorem example_config_yields_expected_bindings :
    ((mkWorkflow (some cfgExample)).nodes .subjectsNode).map Node.iterables =
      some (some ("subject", .strList ["101", "102"]))
    ∧ lookupKey (((mkWorkflow (some cfgExample)).nodes .dicomGrabber).getD
        (defaultNode .dicomGrabber)).inputs "base_directory" =
        some (.prim (.str "/data/raw"))
    ∧ lookupKey (((mkWorkflow (some cfgExample)).nodes .dicomGrabber).getD
        (defaultNode .dicomGrabber)).inputs "field_template" =
        some (.map [("dicom", .str "%s/*.dcm")])
    ∧ lookupKey (((mkWorkflow (some cfgExample)).nodes .niiWrangler).getD
        (defaultNode .niiWrangler)).inputs "series_map" = none := by
  decide

/-- C10.  Both public entry points that hand the graph to the external
engine, run and write_graph, unconditionally perform the full
clear-then-reconnect before delegating: whatever the composer state, the
state they pass on carries the complete fixed edge set, even if the caller
never rewired explicitly after assigning a configuration. -/
theorem run_and_write_graph_always_rewire (s : WState) :
    (runWorkflow s).edges = fixedEdges
    ∧ (write_graph s).edges = fixedEdges
    ∧ runWorkflow s = connect_nodes s
    ∧ write_graph s = connect_nodes s :=
  ⟨edges_connect_nodes s, edges_connect_nodes s, rfl, rfl⟩
